import Mathlib

/-!
# Verification of the `logger` GELF datagram writer

Shallow embedding of `logger.go` (package `logger`): the GELF UDP writer that
compresses a serialized log record, decides between the unchunked and the
chunked path, frames chunks with a 12-byte header and sends each datagram over
a connected UDP socket.

Modelling conventions:
* Bytes are `Nat` values; payloads and datagrams are `List Nat`. All byte
  values written by the code at reachable states are below 256 (sequence index
  and total count are at most 128 after the `MaxChunkCount` guard), so no
  modular truncation is needed except for the explicit `uint8(count)` cast,
  which is kept as `% 256`.
* The UDP connection is an oracle `conn : Nat -> List Nat -> SendResult`,
  indexed by the number of datagrams handed to `conn.Write` so far in the
  current `Write` call; each call may independently succeed (returning the
  accepted byte count with a nil error) or fail (non-nil error plus a count).
* `crypto/rand` is an oracle `Option (List Nat)`: `some id` models
  `io.ReadFull(rand.Reader, messageID)` succeeding and filling the 8 bytes
  `id`; `none` models a short read or error.
* The gzip / zlib library writers are abstract collaborators: an init
  predicate (whether `NewWriterLevel` accepts the level) and an output
  function (the bytes the writer flushes into the target buffer by `Close`).
  `bytes.Buffer` writes never fail, so the compressor `Write` call returns
  `(len(buf), nil)`.
* Observable effects are part of each result: the list of datagrams handed to
  the socket, and whether the random source was read.
-/

namespace GelfLogger

/-- MaxChunkCount maximal chunk per message count (logger.go line 44). -/
def MaxChunkCount : Nat := 128

/-- DefaultChunkSize is default WAN chunk size (logger.go line 47). -/
def DefaultChunkSize : Nat := 1420

/-- CompressionNone compression selector (logger.go line 50). -/
def CompressionNone : Nat := 0

/-- CompressionGzip compression selector (logger.go line 53). -/
def CompressionGzip : Nat := 1

/-- CompressionZlib compression selector (logger.go line 56). -/
def CompressionZlib : Nat := 2

/-- chunkedMagicBytes chunked message magic bytes (logger.go line 62). -/
def chunkedMagicBytes : List Nat := [0x1e, 0x0f]

/-- The `writer` struct (logger.go lines 27-33), minus the `net.Conn` handle,
which is modelled as an explicit oracle argument to the operations. -/
structure Writer where
  chunkSize : Nat
  chunkDataSize : Nat
  compressionType : Nat
  compressionLevel : Int
deriving Repr, DecidableEq

/-- Result of one `conn.Write(b)` call: the byte count `n` together with
whether the error return was nil (`ok`) or non-nil (`fail`). -/
inductive SendResult where
  | ok (n : Nat)
  | fail (n : Nat)
deriving Repr, DecidableEq

/-- The structured errors the writer can return (the `fmt.Errorf` values in
logger.go, plus the compressor-init error from `NewWriterLevel`). -/
inductive GoError where
  | tooManyChunks (count maxCount : Nat)
  | randRead
  | shortWrite (n expected : Nat)
  | transport
  | leftover (bytesLeft : Nat)
  | encodingInit
deriving Repr, DecidableEq

/-- Everything a `Write` / `writeChunked` call returns and does: the byte
count `n`, the error (`none` = nil), the datagrams handed to `conn.Write` in
order, and whether `rand.Reader` was read. -/
structure WriteOutcome where
  n : Nat
  err : Option GoError
  sent : List (List Nat)
  randUsed : Bool
deriving Repr, DecidableEq

/-- chunkCount calculates the number of GELF chunks (logger.go lines 171-178):
payloads of at most `chunkSize` bytes count as one chunk, larger ones as
`len(b)/chunkDataSize + 1` under Go integer division. -/
def chunkCount (w : Writer) (b : List Nat) : Nat :=
  if b.length ≤ w.chunkSize then 1
  else b.length / w.chunkDataSize + 1

/-- The loop of `writeChunked` (logger.go lines 204-234), including the final
`bytesLeft != 0` check. State: chunk index `i`, remaining payload bytes
`bytesLeft`, datagrams sent so far. Each iteration slices
`cBytes[i*chunkDataSize : i*chunkDataSize + min(chunkDataSize, bytesLeft)]`
(the Go slice bounds are within range at every reachable call, since
`i <= len/chunkDataSize`, so total `take`/`drop` is a faithful rendering),
prepends the 12-byte header and hands the datagram to the connection. The
result triple is `(n, err, sent)`. -/
def writeChunkedLoop (w : Writer) (conn : Nat → List Nat → SendResult)
    (messageID : List Nat) (nChunks : Nat) (cBytes : List Nat)
    (i bytesLeft : Nat) (sent : List (List Nat)) :
    Nat × Option GoError × List (List Nat) :=
  if h : i < nChunks then
    let off := i * w.chunkDataSize
    let chunkLen := min w.chunkDataSize bytesLeft
    let dgram := chunkedMagicBytes ++ messageID ++ [i, nChunks] ++
      (cBytes.drop off).take chunkLen
    match conn sent.length dgram with
    | .fail n => (cBytes.length - bytesLeft + n, some .transport, sent ++ [dgram])
    | .ok n =>
      if n ≠ dgram.length then
        (cBytes.length - bytesLeft + n,
         some (.shortWrite (cBytes.length - bytesLeft + n) cBytes.length),
         sent ++ [dgram])
      else
        writeChunkedLoop w conn messageID nChunks cBytes (i + 1)
          (bytesLeft - chunkLen) (sent ++ [dgram])
  else
    if bytesLeft ≠ 0 then
      (cBytes.length - bytesLeft, some (.leftover bytesLeft), sent)
    else
      (cBytes.length, none, sent)
termination_by nChunks - i
decreasing_by omega

/-- writeChunked sends a message by chunks (logger.go lines 181-235): the
pre-flight `count > MaxChunkCount` check, then the `io.ReadFull(rand.Reader,
messageID)` read (`randResult`), then the send loop with `nChunks =
uint8(count)`. -/
def writeChunked (w : Writer) (conn : Nat → List Nat → SendResult)
    (randResult : Option (List Nat)) (count : Nat) (cBytes : List Nat) :
    WriteOutcome :=
  if count > MaxChunkCount then
    ⟨0, some (.tooManyChunks count MaxChunkCount), [], false⟩
  else
    match randResult with
    | none => ⟨0, some .randRead, [], true⟩
    | some messageID =>
      let r := writeChunkedLoop w conn messageID (count % 256) cBytes
        0 cBytes.length []
      ⟨r.1, r.2.1, r.2.2, true⟩

/-- The tail of `Write` after compression (logger.go lines 154-167): dispatch
on `chunkCount`, and on the unchunked path send `cBytes` as a single datagram,
failing when the connection errors or accepts fewer bytes than submitted. -/
def writeDispatch (w : Writer) (conn : Nat → List Nat → SendResult)
    (randResult : Option (List Nat)) (cBytes : List Nat) : WriteOutcome :=
  if 1 < chunkCount w cBytes then
    writeChunked w conn randResult (chunkCount w cBytes) cBytes
  else
    match conn 0 cBytes with
    | .fail n => ⟨n, some .transport, [cBytes], false⟩
    | .ok n =>
      if n ≠ cBytes.length then
        ⟨n, some (.shortWrite n cBytes.length), [cBytes], false⟩
      else
        ⟨n, none, [cBytes], false⟩

/-- A `Write` call either returns `(n, err)` (with its observable effects) or
panics. -/
inductive WriteResult where
  | panicked
  | returned (o : WriteOutcome)
deriving Repr, DecidableEq

/-- Write implements io.Writer (logger.go lines 129-168). The `switch` on
`w.compressionType`:
* `CompressionNone`: `cw = &writeCloser{cBuf}` copies the empty
  `bytes.Buffer` BY VALUE into the `writeCloser`, so `cw.Write(buf)` fills
  the copy and the original `cBuf` stays empty; `cBuf.Bytes()` is therefore
  `[]` whatever `buf` is, and the writer continues with an empty payload.
* `CompressionGzip` / `CompressionZlib`: `NewWriterLevel` fails for an invalid
  level (`gzipInit` / `zlibInit` false), returning `(0, err)`; otherwise the
  compressor buffers `buf` (its `Write` returns `(len(buf), nil)` since the
  underlying `bytes.Buffer` cannot fail) and `Close` flushes
  `gzipOut level buf` / `zlibOut level buf` into `cBuf`.
* any other value: the `switch` has no default, `cw` stays nil and err stays
  nil, so `cw.Write(buf)` dereferences a nil interface and the call panics. -/
def Write (w : Writer) (conn : Nat → List Nat → SendResult)
    (randResult : Option (List Nat))
    (gzipInit : Int → Bool) (gzipOut : Int → List Nat → List Nat)
    (zlibInit : Int → Bool) (zlibOut : Int → List Nat → List Nat)
    (buf : List Nat) : WriteResult :=
  if w.compressionType = CompressionNone then
    .returned (writeDispatch w conn randResult [])
  else if w.compressionType = CompressionGzip then
    if gzipInit w.compressionLevel then
      .returned (writeDispatch w conn randResult (gzipOut w.compressionLevel buf))
    else
      .returned ⟨0, some .encodingInit, [], false⟩
  else if w.compressionType = CompressionZlib then
    if zlibInit w.compressionLevel then
      .returned (writeDispatch w conn randResult (zlibOut w.compressionLevel buf))
    else
      .returned ⟨0, some .encodingInit, [], false⟩
  else
    .panicked

/-- The `LoggingConfiguration` struct (logger.go lines 20-24). -/
structure LoggingConfiguration where
  GraylogAddress : String
  AppName : String
  Hostname : String
deriving Repr, DecidableEq

/-- The zap core the built logger writes to: the stdout JSON core of the
production configuration, or a core backed by the GELF `writer`. -/
inductive CoreModel where
  | console
  | graylog (w : Writer)
deriving Repr, DecidableEq

/-- The writer `New` builds when a Graylog address is configured
(logger.go lines 89-94): default 1420-byte chunks, 1408-byte chunk data
(chunk size minus the 12-byte header), gzip at best compression (level 9). -/
def defaultGraylogWriter : Writer :=
  { chunkSize := DefaultChunkSize
    chunkDataSize := DefaultChunkSize - 12
    compressionType := CompressionGzip
    compressionLevel := 9 }

/-- The `corewrap` closure inside `New` (logger.go lines 87-109). With a
non-empty Graylog address it dials UDP (`dialResult`; `some ()` = connected,
`none` = dial error); on dial failure it prints a fallback notice and returns
the original core unchanged, on success it replaces the core with one that
syncs to the GELF writer. -/
def corewrap (configuration : LoggingConfiguration)
    (dialResult : Option Unit) (core : CoreModel) : CoreModel :=
  if configuration.GraylogAddress ≠ "" then
    match dialResult with
    | none => core
    | some _ => .graylog defaultGraylogWriter
  else
    core

/-- New creates the logger (logger.go lines 66-121): builds the production
configuration and wraps its console core through `corewrap`. The dial error
assigned to the captured `err` variable is never returned: `New` returns the
result of `loggerConf.Build`, whose error is nil for this fixed valid
configuration. -/
def New (configuration : LoggingConfiguration) (dialResult : Option Unit) :
    CoreModel × Option GoError :=
  (corewrap configuration dialResult .console, none)

/-- A connection that accepts every datagram in full. -/
def allOk : Nat → List Nat → SendResult := fun _ d => .ok d.length

/-- The datagram the loop of `writeChunked` builds for chunk `i`: the 12-byte
header followed by the slice
`cBytes[i*chunkDataSize : i*chunkDataSize + min(chunkDataSize, bytesLeft)]`,
where `bytesLeft = len(cBytes) - i*chunkDataSize` at iteration `i`. -/
def mkChunk (w : Writer) (messageID : List Nat) (nChunks : Nat)
    (cBytes : List Nat) (i : Nat) : List Nat :=
  chunkedMagicBytes ++ messageID ++ [i, nChunks] ++
    (cBytes.drop (i * w.chunkDataSize)).take
      (min w.chunkDataSize (cBytes.length - i * w.chunkDataSize))

/-! ## Helper lemmas -/

/-- Taking `min cap rest` from the tail starting at `off`, where `rest` is the
length of that tail, is the same as taking `cap`. -/
lemma take_min_eq_take (xs : List Nat) (cap off : Nat) :
    (xs.drop off).take (min cap (xs.length - off)) = (xs.drop off).take cap := by
  have hl : (xs.drop off).length = xs.length - off := List.length_drop off xs
  rcases le_total cap (xs.length - off) with h | h
  · rw [min_eq_left h]
  · rw [min_eq_right h, ← hl, List.take_length,
      List.take_of_length_le (le_of_eq_of_le hl h)]

/-- Go integer division: when `d` does not divide `n`, `n / d + 1` is the
ceiling `(n + d - 1) / d`. -/
lemma div_add_one_eq_ceil (n d : Nat) (hd : 0 < d) (hnd : ¬ d ∣ n) :
    n / d + 1 = (n + d - 1) / d := by
  have hmod : n % d ≠ 0 := fun h => hnd (Nat.dvd_of_mod_eq_zero h)
  have h2 : n % d < d := Nat.mod_lt _ hd
  conv_rhs => rw [← Nat.div_add_mod n d]
  have hre : d * (n / d) + n % d + d - 1 = d * (n / d) + (n % d - 1 + d) := by
    omega
  have hz : (n % d - 1) / d = 0 := Nat.div_eq_of_lt (by omega)
  rw [hre, Nat.mul_add_div hd, Nat.add_div_right _ hd, hz]

/-- Under an all-accepting connection, the send loop of `writeChunked`
consumes the remaining chunks `j, j+1, ..., nChunks-1`, sends `mkChunk` for
each and returns the full payload length with a nil error, provided the
payload fits in `nChunks` chunks. -/
lemma writeChunkedLoop_allOk (w : Writer) (messageID : List Nat)
    (nChunks : Nat) (cBytes : List Nat)
    (hfit : cBytes.length ≤ nChunks * w.chunkDataSize) :
    ∀ k j sent, j + k = nChunks →
      writeChunkedLoop w allOk messageID nChunks cBytes j
          (cBytes.length - j * w.chunkDataSize) sent =
        (cBytes.length, none,
         sent ++ (List.range' j k).map (mkChunk w messageID nChunks cBytes)) := by
  intro k
  induction k with
  | zero =>
    intro j sent hj
    have hj' : j = nChunks := by omega
    subst hj'
    rw [writeChunkedLoop]
    have h0 : cBytes.length - j * w.chunkDataSize = 0 := by omega
    simp [h0]
  | succ k ih =>
    intro j sent hj
    have hlt : j < nChunks := by omega
    rw [writeChunkedLoop, dif_pos hlt]
    simp only [allOk, ne_eq, not_true_eq_false, if_false]
    have hbl : cBytes.length - j * w.chunkDataSize -
        min w.chunkDataSize (cBytes.length - j * w.chunkDataSize) =
        cBytes.length - (j + 1) * w.chunkDataSize := by
      have : (j + 1) * w.chunkDataSize = j * w.chunkDataSize + w.chunkDataSize := by
        ring
      omega
    rw [hbl, ih (j + 1) _ (by omega)]
    rw [List.range'_succ]
    simp [mkChunk, List.append_assoc]

/-- writeChunked under an all-accepting connection with a successful random
read: the pre-flight check passes for `count ≤ 128`, the message id is
consumed, and the `count` chunks `mkChunk 0, ..., mkChunk (count-1)` are sent. -/
lemma writeChunked_allOk (w : Writer) (messageID : List Nat)
    (count : Nat) (cBytes : List Nat) (hcount : count ≤ MaxChunkCount)
    (hfit : cBytes.length ≤ count * w.chunkDataSize) :
    writeChunked w allOk (some messageID) count cBytes =
      ⟨cBytes.length, none,
       (List.range count).map (mkChunk w messageID count cBytes), true⟩ := by
  unfold writeChunked
  have hng : ¬ count > MaxChunkCount := by omega
  have hmod : count % 256 = count := Nat.mod_eq_of_lt (by
    have : MaxChunkCount = 128 := rfl
    omega)
  rw [if_neg hng]
  simp only [hmod]
  have hloop := writeChunkedLoop_allOk w messageID count cBytes hfit count 0 []
    (by omega)
  simp only [Nat.zero_mul, Nat.sub_zero, List.nil_append] at hloop
  rw [hloop]
  simp [List.range_eq_range']

/-- Dropping the 12-byte header of `mkChunk` leaves exactly the payload
slice, when the message id is 8 bytes long. -/
lemma mkChunk_drop_header (w : Writer) (messageID : List Nat)
    (nChunks : Nat) (cBytes : List Nat) (i : Nat)
    (hmsg : messageID.length = 8) :
    (mkChunk w messageID nChunks cBytes i).drop 12 =
      (cBytes.drop (i * w.chunkDataSize)).take
        (min w.chunkDataSize (cBytes.length - i * w.chunkDataSize)) := by
  unfold mkChunk
  rw [show chunkedMagicBytes ++ messageID ++ [i, nChunks] ++
      (cBytes.drop (i * w.chunkDataSize)).take
        (min w.chunkDataSize (cBytes.length - i * w.chunkDataSize)) =
      (chunkedMagicBytes ++ messageID ++ [i, nChunks]) ++
      (cBytes.drop (i * w.chunkDataSize)).take
        (min w.chunkDataSize (cBytes.length - i * w.chunkDataSize)) by
    simp [List.append_assoc]]
  exact List.drop_left' (by simp [chunkedMagicBytes, hmsg])

/-- Concatenating the payload slices of chunks `j, ..., j+k-1` yields the
tail of the payload from offset `j*cap`, provided the payload ends within
those chunks. -/
lemma flatten_payload_slices (cap : Nat) (xs : List Nat) :
    ∀ k j, xs.length ≤ (j + k) * cap →
      ((List.range' j k).map (fun i =>
        (xs.drop (i * cap)).take (min cap (xs.length - i * cap)))).flatten =
      xs.drop (j * cap) := by
  intro k
  induction k with
  | zero =>
    intro j h
    simp only [List.range', List.map_nil, List.flatten_nil]
    exact (List.drop_eq_nil_of_le (by simpa using h)).symm
  | succ k ih =>
    intro j h
    rw [List.range'_succ, List.map_cons, List.flatten_cons]
    have h' : xs.length ≤ (j + 1 + k) * cap := by
      have : j + 1 + k = j + (k + 1) := by omega
      rw [this]; exact h
    rw [ih (j + 1) h', take_min_eq_take]
    have hdd : xs.drop ((j + 1) * cap) = (xs.drop (j * cap)).drop cap := by
      rw [List.drop_drop]
      congr 1
      ring
    rw [hdd, List.take_append_drop]

/-- The datagram the loop of `writeChunked` builds at state `(i, bytesLeft)`:
convenient abbreviation for stepping lemmas. -/
def loopDgram (w : Writer) (messageID : List Nat) (nChunks : Nat)
    (cBytes : List Nat) (i bytesLeft : Nat) : List Nat :=
  chunkedMagicBytes ++ messageID ++ [i, nChunks] ++
    (cBytes.drop (i * w.chunkDataSize)).take (min w.chunkDataSize bytesLeft)

/-- writeChunked with a successful random read and an admissible count is the
send loop started at chunk 0 with the whole payload left. -/
lemma writeChunked_eq_loop (w : Writer) (conn : Nat → List Nat → SendResult)
    (messageID : List Nat) (count : Nat) (cBytes : List Nat)
    (h : count ≤ MaxChunkCount) :
    writeChunked w conn (some messageID) count cBytes =
      ⟨(writeChunkedLoop w conn messageID count cBytes 0 cBytes.length []).1,
       (writeChunkedLoop w conn messageID count cBytes 0 cBytes.length []).2.1,
       (writeChunkedLoop w conn messageID count cBytes 0 cBytes.length []).2.2,
       true⟩ := by
  unfold writeChunked
  rw [if_neg (by omega), Nat.mod_eq_of_lt (by
    have hm : MaxChunkCount = 128 := rfl
    omega)]

/-- One successful send step of the loop. -/
lemma writeChunkedLoop_step_ok (w : Writer)
    (conn : Nat → List Nat → SendResult) (messageID : List Nat)
    (nChunks : Nat) (cBytes : List Nat) (i bytesLeft : Nat)
    (sent : List (List Nat)) (hi : i < nChunks)
    (hok : conn sent.length (loopDgram w messageID nChunks cBytes i bytesLeft) =
      .ok (loopDgram w messageID nChunks cBytes i bytesLeft).length) :
    writeChunkedLoop w conn messageID nChunks cBytes i bytesLeft sent =
      writeChunkedLoop w conn messageID nChunks cBytes (i + 1)
        (bytesLeft - min w.chunkDataSize bytesLeft)
        (sent ++ [loopDgram w messageID nChunks cBytes i bytesLeft]) := by
  rw [writeChunkedLoop, dif_pos hi]
  simp only [loopDgram] at hok ⊢
  simp only [hok, ne_eq, not_true_eq_false, if_false]

/-- One failing send step of the loop: the call returns immediately with the
payload bytes of the already-sent chunks plus the count the failing send
reported. -/
lemma writeChunkedLoop_step_fail (w : Writer)
    (conn : Nat → List Nat → SendResult) (messageID : List Nat)
    (nChunks : Nat) (cBytes : List Nat) (i bytesLeft m : Nat)
    (sent : List (List Nat)) (hi : i < nChunks)
    (hfail : conn sent.length (loopDgram w messageID nChunks cBytes i bytesLeft) =
      .fail m) :
    writeChunkedLoop w conn messageID nChunks cBytes i bytesLeft sent =
      (cBytes.length - bytesLeft + m, some .transport,
       sent ++ [loopDgram w messageID nChunks cBytes i bytesLeft]) := by
  rw [writeChunkedLoop, dif_pos hi]
  simp only [loopDgram] at hfail ⊢
  simp only [hfail]

/-- If the connection accepts the first `k` datagrams in full and fails on
datagram `k` reporting `m` bytes, the loop (started at any chunk `j ≤ k`
with the matching remaining-byte count and `j` datagrams already sent)
stops at chunk `k`: it returns the payload bytes of the chunks before `k`
plus `m`, the transport error, and has handed the datagrams up to and
including the failing one to the connection. -/
lemma writeChunkedLoop_first_fail (w : Writer)
    (conn : Nat → List Nat → SendResult) (messageID : List Nat)
    (nChunks : Nat) (cBytes : List Nat) (k m : Nat) (hk : k < nChunks)
    (hok : ∀ j, j < k → ∀ d, conn j d = .ok d.length)
    (hfail : ∀ d, conn k d = .fail m) :
    ∀ j sent, j ≤ k → sent.length = j →
      writeChunkedLoop w conn messageID nChunks cBytes j
          (cBytes.length - j * w.chunkDataSize) sent =
        (cBytes.length - (cBytes.length - k * w.chunkDataSize) + m,
         some .transport,
         sent ++ (List.range' j (k - j)).map (fun i =>
             loopDgram w messageID nChunks cBytes i
               (cBytes.length - i * w.chunkDataSize)) ++
           [loopDgram w messageID nChunks cBytes k
             (cBytes.length - k * w.chunkDataSize)]) := by
  suffices h : ∀ t j sent, j + t = k → sent.length = j →
      writeChunkedLoop w conn messageID nChunks cBytes j
          (cBytes.length - j * w.chunkDataSize) sent =
        (cBytes.length - (cBytes.length - k * w.chunkDataSize) + m,
         some .transport,
         sent ++ (List.range' j (k - j)).map (fun i =>
             loopDgram w messageID nChunks cBytes i
               (cBytes.length - i * w.chunkDataSize)) ++
           [loopDgram w messageID nChunks cBytes k
             (cBytes.length - k * w.chunkDataSize)]) by
    intro j sent hj hs
    exact h (k - j) j sent (by omega) hs
  intro t
  induction t with
  | zero =>
    intro j sent hj hs
    have hj' : j = k := by omega
    subst hj'
    rw [writeChunkedLoop_step_fail w conn messageID nChunks cBytes j
      (cBytes.length - j * w.chunkDataSize) m sent hk
      (by rw [hs]; exact hfail _)]
    simp
  | succ t ih =>
    intro j sent hj hs
    have hjk : j < k := by omega
    rw [writeChunkedLoop_step_ok w conn messageID nChunks cBytes j
      (cBytes.length - j * w.chunkDataSize) sent (by omega)
      (by rw [hs]; exact hok j hjk _)]
    have hbl : cBytes.length - j * w.chunkDataSize -
        min w.chunkDataSize (cBytes.length - j * w.chunkDataSize) =
        cBytes.length - (j + 1) * w.chunkDataSize := by
      have hmul : (j + 1) * w.chunkDataSize =
          j * w.chunkDataSize + w.chunkDataSize := by ring
      omega
    rw [hbl, ih (j + 1)
      (sent ++ [loopDgram w messageID nChunks cBytes j
        (cBytes.length - j * w.chunkDataSize)])
      (by omega) (by simp [hs])]
    rw [show k - j = (k - (j + 1)) + 1 by omega, List.range'_succ]
    simp [List.append_assoc]

/-! ## Claim theorems -/

/-- C1, counterexample: for the default writer (chunk size 1420, chunk data
capacity 1408) a compressed payload of 2816 = 2 * 1408 bytes, an exact
multiple of the capacity, is counted as 3 chunks by `chunkCount`, not the
`len / capacity = 2` chunks the claim states. -/
theorem C1_exact_multiple_counterexample :
    chunkCount defaultGraylogWriter (List.replicate 2816 0) = 3 ∧
    (List.replicate 2816 0).length / defaultGraylogWriter.chunkDataSize = 2 := by
  constructor
  · unfold chunkCount
    rw [List.length_replicate]
    norm_num [defaultGraylogWriter, DefaultChunkSize]
  · rw [List.length_replicate]
    norm_num [defaultGraylogWriter, DefaultChunkSize]

/-- C1, amended: for every payload longer than the single-datagram limit the
chunk count is `len / capacity + 1` under integer division; this equals
`ceil(len / capacity)` exactly when the capacity does not divide the length,
and a payload whose length is an exact multiple of the capacity gets one
extra chunk whose payload slice (starting at `(count-1) * capacity`) is
empty. -/
theorem C1_chunkCount_amended (w : Writer) (b : List Nat)
    (hlen : w.chunkSize < b.length) (hcap : 0 < w.chunkDataSize) :
    chunkCount w b = b.length / w.chunkDataSize + 1 ∧
    (¬ w.chunkDataSize ∣ b.length →
      chunkCount w b = (b.length + w.chunkDataSize - 1) / w.chunkDataSize) ∧
    (w.chunkDataSize ∣ b.length →
      b.drop ((chunkCount w b - 1) * w.chunkDataSize) = []) := by
  have hc : chunkCount w b = b.length / w.chunkDataSize + 1 := by
    unfold chunkCount
    rw [if_neg (by omega)]
  refine ⟨hc, fun hnd => ?_, fun hdvd => ?_⟩
  · rw [hc]
    exact div_add_one_eq_ceil b.length w.chunkDataSize hcap hnd
  · rw [hc]
    simp only [Nat.add_sub_cancel]
    rw [Nat.div_mul_cancel hdvd, List.drop_length]

/-- C1, witness: the amended statement applied to the default writer and a
1421-byte payload. -/
theorem C1_chunkCount_amended_witness :
    defaultGraylogWriter.chunkSize < (List.replicate 1421 0).length ∧
    0 < defaultGraylogWriter.chunkDataSize ∧
    (chunkCount defaultGraylogWriter (List.replicate 1421 0) =
        (List.replicate 1421 0).length / defaultGraylogWriter.chunkDataSize + 1 ∧
      (¬ defaultGraylogWriter.chunkDataSize ∣ (List.replicate 1421 0).length →
        chunkCount defaultGraylogWriter (List.replicate 1421 0) =
          ((List.replicate 1421 0).length + defaultGraylogWriter.chunkDataSize - 1) /
            defaultGraylogWriter.chunkDataSize) ∧
      (defaultGraylogWriter.chunkDataSize ∣ (List.replicate 1421 0).length →
        (List.replicate 1421 0).drop
          ((chunkCount defaultGraylogWriter (List.replicate 1421 0) - 1) *
            defaultGraylogWriter.chunkDataSize) = [])) :=
  ⟨by rw [List.length_replicate]; norm_num [defaultGraylogWriter, DefaultChunkSize],
   by norm_num [defaultGraylogWriter, DefaultChunkSize],
   C1_chunkCount_amended defaultGraylogWriter (List.replicate 1421 0)
     (by rw [List.length_replicate]; norm_num [defaultGraylogWriter, DefaultChunkSize])
     (by norm_num [defaultGraylogWriter, DefaultChunkSize])⟩

/-- C3, code bug: with `CompressionNone` and the default 1420-byte limit,
writing the 11 bytes of "hello world" does NOT pass them through: because
`writeCloser{cBuf}` copies the `bytes.Buffer` by value, the compressed buffer
stays empty, the writer emits exactly one EMPTY datagram and `Write` returns
`(0, nil)` instead of the claimed `(11, nil)` with an 11-byte datagram. -/
theorem C3_compressionNone_drops_payload :
    Write { chunkSize := 1420, chunkDataSize := 1408,
            compressionType := CompressionNone, compressionLevel := 9 }
        allOk (some (List.replicate 8 0)) (fun _ => true) (fun _ b => b)
        (fun _ => true) (fun _ b => b)
        [104, 101, 108, 108, 111, 32, 119, 111, 114, 108, 100] =
      WriteResult.returned ⟨0, none, [[]], false⟩ := by
  rfl

/-- C5: a compressed payload of at most `chunkSize` bytes is sent as one
unchunked datagram that is exactly the payload (no chunk header), whatever
the connection does; a payload one byte over the limit makes `chunkCount`
exceed 1, so the dispatch takes the chunked path. -/
theorem C5_unchunked_threshold (w : Writer)
    (conn : Nat → List Nat → SendResult) (randResult : Option (List Nat))
    (cBytes : List Nat) (hcap : 0 < w.chunkDataSize)
    (hle : w.chunkDataSize ≤ w.chunkSize) :
    (cBytes.length ≤ w.chunkSize →
      (writeDispatch w conn randResult cBytes).sent = [cBytes]) ∧
    (cBytes.length = w.chunkSize + 1 →
      1 < chunkCount w cBytes ∧
      writeDispatch w conn randResult cBytes =
        writeChunked w conn randResult (chunkCount w cBytes) cBytes) := by
  constructor
  · intro hfit
    have h1 : chunkCount w cBytes = 1 := by
      unfold chunkCount
      rw [if_pos hfit]
    unfold writeDispatch
    rw [h1, if_neg (by omega)]
    cases conn 0 cBytes with
    | fail n => rfl
    | ok n =>
      by_cases hh : n = cBytes.length <;> simp [hh]
  · intro hlen
    have hcc : 1 < chunkCount w cBytes := by
      unfold chunkCount
      rw [if_neg (by omega)]
      have h1 : 1 ≤ cBytes.length / w.chunkDataSize := by
        rw [Nat.one_le_div_iff hcap]
        omega
      omega
    refine ⟨hcc, ?_⟩
    unfold writeDispatch
    rw [if_pos hcc]

/-- C5, witness: the threshold statement applied to the default writer, an
all-accepting connection and a payload of exactly `chunkSize + 1` bytes. -/
theorem C5_unchunked_threshold_witness :
    0 < defaultGraylogWriter.chunkDataSize ∧
    defaultGraylogWriter.chunkDataSize ≤ defaultGraylogWriter.chunkSize ∧
    (((List.replicate 1421 2).length ≤ defaultGraylogWriter.chunkSize →
      (writeDispatch defaultGraylogWriter allOk (some (List.replicate 8 0))
        (List.replicate 1421 2)).sent = [List.replicate 1421 2]) ∧
    ((List.replicate 1421 2).length = defaultGraylogWriter.chunkSize + 1 →
      1 < chunkCount defaultGraylogWriter (List.replicate 1421 2) ∧
      writeDispatch defaultGraylogWriter allOk (some (List.replicate 8 0))
          (List.replicate 1421 2) =
        writeChunked defaultGraylogWriter allOk (some (List.replicate 8 0))
          (chunkCount defaultGraylogWriter (List.replicate 1421 2))
          (List.replicate 1421 2))) :=
  ⟨by norm_num [defaultGraylogWriter, DefaultChunkSize],
   by norm_num [defaultGraylogWriter, DefaultChunkSize],
   C5_unchunked_threshold defaultGraylogWriter allOk (some (List.replicate 8 0))
     (List.replicate 1421 2)
     (by norm_num [defaultGraylogWriter, DefaultChunkSize])
     (by norm_num [defaultGraylogWriter, DefaultChunkSize])⟩

/-- C7: whenever the computed chunk count exceeds `MaxChunkCount = 128`,
`writeChunked` fails with an error carrying both the computed count and the
maximum, sends no datagram and never reads the random source, for every
connection and every random-source behaviour: a pre-flight check. -/
theorem C7_too_many_chunks_preflight (w : Writer)
    (conn : Nat → List Nat → SendResult) (randResult : Option (List Nat))
    (count : Nat) (cBytes : List Nat) (h : MaxChunkCount < count) :
    writeChunked w conn randResult count cBytes =
      ⟨0, some (.tooManyChunks count MaxChunkCount), [], false⟩ := by
  unfold writeChunked
  rw [if_pos h]

/-- C7, witness: the pre-flight rejection at a count of 129. -/
theorem C7_too_many_chunks_preflight_witness :
    MaxChunkCount < 129 ∧
    writeChunked defaultGraylogWriter allOk (some (List.replicate 8 0)) 129
        (List.replicate 3 1) =
      ⟨0, some (.tooManyChunks 129 MaxChunkCount), [], false⟩ :=
  ⟨by decide,
   C7_too_many_chunks_preflight defaultGraylogWriter allOk
     (some (List.replicate 8 0)) 129 (List.replicate 3 1) (by decide)⟩

/-- C9: with a non-empty Graylog address and a failing UDP dial, `New` still
succeeds: it keeps the console core of the production configuration and
returns no error (the dial error is assigned to a captured variable that is
never returned). -/
theorem C9_dial_failure_fallback (configuration : LoggingConfiguration)
    (h : configuration.GraylogAddress ≠ "") :
    New configuration none = (CoreModel.console, none) := by
  unfold New corewrap
  simp [h]

/-- C9, witness: the fallback at the configuration used by the repository
test. -/
theorem C9_dial_failure_fallback_witness :
    ({ GraylogAddress := "localhost:5141", AppName := "test",
       Hostname := "localhost" } : LoggingConfiguration).GraylogAddress ≠ "" ∧
    New { GraylogAddress := "localhost:5141", AppName := "test",
          Hostname := "localhost" } none = (CoreModel.console, none) :=
  ⟨by decide,
   C9_dial_failure_fallback
     { GraylogAddress := "localhost:5141", AppName := "test",
       Hostname := "localhost" } (by decide)⟩

/-- C10: for every compression-type value other than 0, 1, 2 the `switch` in
`Write` leaves the compression writer nil with a nil error, and the
subsequent `cw.Write(buf)` dereferences the nil interface: the call panics
instead of returning a structured error. -/
theorem C10_unknown_compression_panics (w : Writer)
    (conn : Nat → List Nat → SendResult) (randResult : Option (List Nat))
    (gzipInit : Int → Bool) (gzipOut : Int → List Nat → List Nat)
    (zlibInit : Int → Bool) (zlibOut : Int → List Nat → List Nat)
    (buf : List Nat)
    (h0 : w.compressionType ≠ CompressionNone)
    (h1 : w.compressionType ≠ CompressionGzip)
    (h2 : w.compressionType ≠ CompressionZlib) :
    Write w conn randResult gzipInit gzipOut zlibInit zlibOut buf =
      WriteResult.panicked := by
  unfold Write
  rw [if_neg h0, if_neg h1, if_neg h2]

/-- C10, witness: compression type 3 panics on any input. -/
theorem C10_unknown_compression_panics_witness :
    ({ chunkSize := 1420, chunkDataSize := 1408, compressionType := 3,
       compressionLevel := 9 } : Writer).compressionType ≠ CompressionNone ∧
    ({ chunkSize := 1420, chunkDataSize := 1408, compressionType := 3,
       compressionLevel := 9 } : Writer).compressionType ≠ CompressionGzip ∧
    ({ chunkSize := 1420, chunkDataSize := 1408, compressionType := 3,
       compressionLevel := 9 } : Writer).compressionType ≠ CompressionZlib ∧
    Write { chunkSize := 1420, chunkDataSize := 1408, compressionType := 3,
            compressionLevel := 9 }
        allOk (some (List.replicate 8 0)) (fun _ => true) (fun _ b => b)
        (fun _ => true) (fun _ b => b) [1, 2, 3] =
      WriteResult.panicked :=
  ⟨by decide, by decide, by decide,
   C10_unknown_compression_panics _ allOk (some (List.replicate 8 0))
     (fun _ => true) (fun _ b => b) (fun _ => true) (fun _ b => b) [1, 2, 3]
     (by decide) (by decide) (by decide)⟩

/-- C2, counterexample: at the default capacity 1408, a payload of exactly
128 * 1408 = 180224 bytes is counted as 129 chunks, and `writeChunked`
rejects it with the too-many-chunks error and zero datagrams instead of
framing it into 128 chunks and succeeding as the claim states. -/
theorem C2_boundary_counterexample :
    chunkCount defaultGraylogWriter (List.replicate 180224 0) = 129 ∧
    writeChunked defaultGraylogWriter allOk (some (List.replicate 8 0))
        (chunkCount defaultGraylogWriter (List.replicate 180224 0))
        (List.replicate 180224 0) =
      ⟨0, some (.tooManyChunks 129 MaxChunkCount), [], false⟩ := by
  have hc : chunkCount defaultGraylogWriter (List.replicate 180224 0) = 129 := by
    unfold chunkCount
    rw [List.length_replicate]
    norm_num [defaultGraylogWriter, DefaultChunkSize]
  refine ⟨hc, ?_⟩
  rw [hc]
  unfold writeChunked
  rw [if_pos (by norm_num [MaxChunkCount])]

/-- C2, amended: the largest payload the writer accepts is
128 * 1408 - 1 = 180223 bytes, counted as 128 chunks and sent fully (nil
error, 128 datagrams, full byte count) under an all-accepting connection;
payloads of 128 * 1408 = 180224 and 180224 + 1 bytes are counted as 129
chunks and fail with the too-many-chunks error with zero datagrams sent. -/
theorem C2_boundary_amended :
    chunkCount defaultGraylogWriter (List.replicate 180223 0) = 128 ∧
    (writeChunked defaultGraylogWriter allOk (some (List.replicate 8 0)) 128
        (List.replicate 180223 0)).err = none ∧
    (writeChunked defaultGraylogWriter allOk (some (List.replicate 8 0)) 128
        (List.replicate 180223 0)).n = 180223 ∧
    (writeChunked defaultGraylogWriter allOk (some (List.replicate 8 0)) 128
        (List.replicate 180223 0)).sent.length = 128 ∧
    chunkCount defaultGraylogWriter (List.replicate 180224 0) = 129 ∧
    writeChunked defaultGraylogWriter allOk (some (List.replicate 8 0)) 129
        (List.replicate 180224 0) =
      ⟨0, some (.tooManyChunks 129 MaxChunkCount), [], false⟩ ∧
    chunkCount defaultGraylogWriter (List.replicate 180225 0) = 129 ∧
    writeChunked defaultGraylogWriter allOk (some (List.replicate 8 0)) 129
        (List.replicate 180225 0) =
      ⟨0, some (.tooManyChunks 129 MaxChunkCount), [], false⟩ := by
  have hall := writeChunked_allOk defaultGraylogWriter (List.replicate 8 0) 128
    (List.replicate 180223 0) (by norm_num [MaxChunkCount])
    (by rw [List.length_replicate]; norm_num [defaultGraylogWriter, DefaultChunkSize])
  refine ⟨?_, ?_, ?_, ?_, ?_, ?_, ?_, ?_⟩
  · unfold chunkCount
    rw [List.length_replicate]
    norm_num [defaultGraylogWriter, DefaultChunkSize]
  · rw [hall]
  · rw [hall]
    exact List.length_replicate 180223 0
  · rw [hall]
    simp only [List.length_map, List.length_range]
  · unfold chunkCount
    rw [List.length_replicate]
    norm_num [defaultGraylogWriter, DefaultChunkSize]
  · unfold writeChunked
    rw [if_pos (by norm_num [MaxChunkCount])]
  · unfold chunkCount
    rw [List.length_replicate]
    norm_num [defaultGraylogWriter, DefaultChunkSize]
  · unfold writeChunked
    rw [if_pos (by norm_num [MaxChunkCount])]

/-- C4: for every payload that takes the chunked path (longer than the
single-datagram limit, chunk count within the maximum), stripping the 12-byte
headers off the sent chunk datagrams and concatenating the payload slices in
sequence order reproduces the compressed payload byte-for-byte. -/
theorem C4_chunk_payload_roundtrip (w : Writer) (messageID cBytes : List Nat)
    (hcap : 0 < w.chunkDataSize) (hmsg : messageID.length = 8)
    (hbig : w.chunkSize < cBytes.length)
    (hcnt : chunkCount w cBytes ≤ MaxChunkCount) :
    ((writeChunked w allOk (some messageID) (chunkCount w cBytes)
        cBytes).sent.map (fun d => d.drop 12)).flatten = cBytes := by
  have hc : chunkCount w cBytes = cBytes.length / w.chunkDataSize + 1 := by
    unfold chunkCount
    rw [if_neg (by omega)]
  have hfit : cBytes.length ≤ chunkCount w cBytes * w.chunkDataSize := by
    rw [hc]
    have hdm := Nat.div_add_mod cBytes.length w.chunkDataSize
    have hml := Nat.mod_lt cBytes.length hcap
    have hexp : (cBytes.length / w.chunkDataSize + 1) * w.chunkDataSize =
        w.chunkDataSize * (cBytes.length / w.chunkDataSize) + w.chunkDataSize := by
      ring
    omega
  rw [writeChunked_allOk w messageID _ cBytes hcnt hfit]
  simp only [List.map_map]
  rw [List.map_congr_left (fun i _ => by
    simp only [Function.comp_apply]
    exact mkChunk_drop_header w messageID (chunkCount w cBytes) cBytes i hmsg)]
  rw [List.range_eq_range']
  rw [flatten_payload_slices w.chunkDataSize cBytes (chunkCount w cBytes) 0
    (by simpa using hfit)]
  simp

/-- C4, witness: the round-trip at the default writer on a 1421-byte payload
split into two chunks. -/
theorem C4_chunk_payload_roundtrip_witness :
    0 < defaultGraylogWriter.chunkDataSize ∧
    (List.replicate 8 0).length = 8 ∧
    defaultGraylogWriter.chunkSize < (List.replicate 1421 7).length ∧
    chunkCount defaultGraylogWriter (List.replicate 1421 7) ≤ MaxChunkCount ∧
    ((writeChunked defaultGraylogWriter allOk (some (List.replicate 8 0))
        (chunkCount defaultGraylogWriter (List.replicate 1421 7))
        (List.replicate 1421 7)).sent.map (fun d => d.drop 12)).flatten =
      List.replicate 1421 7 :=
  ⟨by norm_num [defaultGraylogWriter, DefaultChunkSize],
   by decide,
   by rw [List.length_replicate]; norm_num [defaultGraylogWriter, DefaultChunkSize],
   by
     unfold chunkCount
     rw [List.length_replicate]
     norm_num [defaultGraylogWriter, DefaultChunkSize, MaxChunkCount],
   C4_chunk_payload_roundtrip defaultGraylogWriter (List.replicate 8 0)
     (List.replicate 1421 7)
     (by norm_num [defaultGraylogWriter, DefaultChunkSize])
     (by decide)
     (by rw [List.length_replicate]; norm_num [defaultGraylogWriter, DefaultChunkSize])
     (by
       unfold chunkCount
       rw [List.length_replicate]
       norm_num [defaultGraylogWriter, DefaultChunkSize, MaxChunkCount])⟩

/-- C6: on the chunked path (payload over the limit, admissible chunk
count), whenever the transport send of some chunk fails — the connection
accepting the first `k` datagrams in full and failing on datagram `k` with a
reported count of `m` bytes — the write fails immediately with the transport
error, reports `k * chunkDataSize + m` bytes (the payload bytes of the `k`
chunks already sent, each a full `chunkDataSize` slice, plus what the
failing send itself reported), and hands exactly `k + 1` datagrams to the
connection, the failing one included; no further chunk is attempted. -/
theorem C6_failing_send_reports_sent_bytes (w : Writer)
    (messageID cBytes : List Nat) (conn : Nat → List Nat → SendResult)
    (k m : Nat) (hcap : 0 < w.chunkDataSize)
    (hbig : w.chunkSize < cBytes.length)
    (hcnt : chunkCount w cBytes ≤ MaxChunkCount)
    (hk : k < chunkCount w cBytes)
    (hok : ∀ j, j < k → ∀ d, conn j d = .ok d.length)
    (hfail : ∀ d, conn k d = .fail m) :
    (writeChunked w conn (some messageID) (chunkCount w cBytes) cBytes).err =
      some .transport ∧
    (writeChunked w conn (some messageID) (chunkCount w cBytes) cBytes).n =
      k * w.chunkDataSize + m ∧
    (writeChunked w conn (some messageID)
        (chunkCount w cBytes) cBytes).sent.length = k + 1 := by
  have hc : chunkCount w cBytes = cBytes.length / w.chunkDataSize + 1 := by
    unfold chunkCount
    rw [if_neg (by omega)]
  have hkdiv : k ≤ cBytes.length / w.chunkDataSize := by omega
  have hkcap : k * w.chunkDataSize ≤ cBytes.length := by
    calc k * w.chunkDataSize
        ≤ cBytes.length / w.chunkDataSize * w.chunkDataSize :=
          mul_le_mul_right' hkdiv _
      _ ≤ cBytes.length := Nat.div_mul_le_self _ _
  rw [writeChunked_eq_loop w conn messageID _ cBytes hcnt]
  have hloop := writeChunkedLoop_first_fail w conn messageID
    (chunkCount w cBytes) cBytes k m hk hok hfail 0 [] (by omega) rfl
  simp only [Nat.zero_mul, Nat.sub_zero, List.nil_append] at hloop
  rw [hloop]
  refine ⟨rfl, ?_, ?_⟩
  · show cBytes.length - (cBytes.length - k * w.chunkDataSize) + m =
      k * w.chunkDataSize + m
    omega
  · simp [List.length_append, List.length_map, List.length_range']

/-- C6, witness: the claimed scenario — a connection failing on the second
of the three chunks of a 3000-byte payload at the default writer, reporting
0 bytes — yields the transport error with a byte count of
`1 * chunkDataSize + 0`, the payload bytes of the first chunk only, after
two datagrams. -/
theorem C6_failing_send_reports_sent_bytes_witness :
    0 < defaultGraylogWriter.chunkDataSize ∧
    defaultGraylogWriter.chunkSize < (List.replicate 3000 5).length ∧
    chunkCount defaultGraylogWriter (List.replicate 3000 5) ≤ MaxChunkCount ∧
    1 < chunkCount defaultGraylogWriter (List.replicate 3000 5) ∧
    (∀ j, j < 1 → ∀ d,
      (fun i (d : List Nat) => if i = 1 then SendResult.fail 0
        else SendResult.ok d.length) j d = SendResult.ok d.length) ∧
    (∀ d, (fun i (d : List Nat) => if i = 1 then SendResult.fail 0
      else SendResult.ok d.length) 1 d = SendResult.fail 0) ∧
    ((writeChunked defaultGraylogWriter
        (fun i d => if i = 1 then .fail 0 else .ok d.length)
        (some (List.replicate 8 0))
        (chunkCount defaultGraylogWriter (List.replicate 3000 5))
        (List.replicate 3000 5)).err = some .transport ∧
     (writeChunked defaultGraylogWriter
        (fun i d => if i = 1 then .fail 0 else .ok d.length)
        (some (List.replicate 8 0))
        (chunkCount defaultGraylogWriter (List.replicate 3000 5))
        (List.replicate 3000 5)).n =
          1 * defaultGraylogWriter.chunkDataSize + 0 ∧
     (writeChunked defaultGraylogWriter
        (fun i d => if i = 1 then .fail 0 else .ok d.length)
        (some (List.replicate 8 0))
        (chunkCount defaultGraylogWriter (List.replicate 3000 5))
        (List.replicate 3000 5)).sent.length = 1 + 1) := by
  refine ⟨by norm_num [defaultGraylogWriter, DefaultChunkSize],
    by rw [List.length_replicate]; norm_num [defaultGraylogWriter, DefaultChunkSize],
    by
      unfold chunkCount
      rw [List.length_replicate]
      norm_num [defaultGraylogWriter, DefaultChunkSize, MaxChunkCount],
    by
      unfold chunkCount
      rw [List.length_replicate]
      norm_num [defaultGraylogWriter, DefaultChunkSize],
    by
      intro j hj d
      have hj0 : j = 0 := by omega
      subst hj0
      norm_num,
    by intro d; norm_num,
    ?_⟩
  exact C6_failing_send_reports_sent_bytes defaultGraylogWriter
    (List.replicate 8 0) (List.replicate 3000 5)
    (fun i d => if i = 1 then .fail 0 else .ok d.length) 1 0
    (by norm_num [defaultGraylogWriter, DefaultChunkSize])
    (by rw [List.length_replicate]; norm_num [defaultGraylogWriter, DefaultChunkSize])
    (by
      unfold chunkCount
      rw [List.length_replicate]
      norm_num [defaultGraylogWriter, DefaultChunkSize, MaxChunkCount])
    (by
      unfold chunkCount
      rw [List.length_replicate]
      norm_num [defaultGraylogWriter, DefaultChunkSize])
    (by
      intro j hj d
      have hj0 : j = 0 := by omega
      subst hj0
      norm_num)
    (by intro d; norm_num)

/-- C8: under an all-accepting connection, chunk datagram `i` of a record is
exactly the two magic bytes 0x1E 0x0F, the 8-byte message id, one byte with
the 0-based sequence index `i`, one byte with the total chunk count shared by
all chunks, followed by the i-th `chunkDataSize`-byte slice of the compressed
payload. -/
theorem C8_chunk_wire_format (w : Writer) (messageID cBytes : List Nat)
    (count : Nat) (hmsg : messageID.length = 8) (hcnt : count ≤ MaxChunkCount)
    (hfit : cBytes.length ≤ count * w.chunkDataSize) :
    (writeChunked w allOk (some messageID) count cBytes).sent =
      (List.range count).map (fun i =>
        [0x1e, 0x0f] ++ messageID ++ [i, count] ++
          (cBytes.drop (i * w.chunkDataSize)).take w.chunkDataSize) ∧
    (∀ i, ([0x1e, 0x0f] ++ messageID ++ [i, count]).length = 12) := by
  constructor
  · rw [writeChunked_allOk w messageID count cBytes hcnt hfit]
    apply List.map_congr_left
    intro i _
    unfold mkChunk chunkedMagicBytes
    rw [take_min_eq_take]
  · intro i
    simp [hmsg]

/-- C8, witness: the wire format of the three chunks of a 3000-byte payload
at the default writer. -/
theorem C8_chunk_wire_format_witness :
    (List.replicate 8 9).length = 8 ∧
    3 ≤ MaxChunkCount ∧
    (List.replicate 3000 5).length ≤ 3 * defaultGraylogWriter.chunkDataSize ∧
    ((writeChunked defaultGraylogWriter allOk (some (List.replicate 8 9)) 3
        (List.replicate 3000 5)).sent =
      (List.range 3).map (fun i =>
        [0x1e, 0x0f] ++ List.replicate 8 9 ++ [i, 3] ++
          ((List.replicate 3000 5).drop (i * defaultGraylogWriter.chunkDataSize)).take
            defaultGraylogWriter.chunkDataSize) ∧
     (∀ i, ([0x1e, 0x0f] ++ List.replicate 8 9 ++ [i, 3]).length = 12)) :=
  ⟨by decide,
   by decide,
   by rw [List.length_replicate]; norm_num [defaultGraylogWriter, DefaultChunkSize],
   C8_chunk_wire_format defaultGraylogWriter (List.replicate 8 9)
     (List.replicate 3000 5) 3 (by decide) (by decide)
     (by rw [List.length_replicate]; norm_num [defaultGraylogWriter, DefaultChunkSize])⟩

end GelfLogger
